import Mathlib

/-!
Verification of the coding-agent core: unified data model, stream
reassembly (stream_handler.py, utils/stream_parser.py), and the agent
interrupt/confirmation state machine (agent.py, core/memory_manager.py).
Each definition is a shallow embedding of the corresponding Python
function; machine-level details that no claim depends on (printing,
token usage) are omitted.
-/

namespace CodingAgent

/-! ### Data model (types.py) -/

inductive MessageRole where
  | system
  | user
  | assistant
  | tool
deriving DecidableEq, Repr

/-- JSON values, modelling the result of Python json.loads.  Numeric
literals are modelled as integers (no claim involves fractional numbers). -/
inductive Json where
  | null
  | bool (b : Bool)
  | num (n : Int)
  | str (s : String)
  | arr (xs : List Json)
  | obj (fields : List (String × Json))

/-- ToolCall from types.py; arguments is whatever json.loads produced. -/
structure ToolCall where
  id : String
  name : String
  arguments : Json

/-- PartialToolCall from types.py.  Optional string fields are encoded as
possibly-empty strings: every use in the source tests Python truthiness,
under which None and the empty string behave identically. -/
structure PartialToolCall where
  index : Nat
  id : String := ""
  name : String := ""
  argumentsDelta : String := ""

structure StreamChunk where
  deltaContent : Option String := none
  deltaReasoning : Option String := none
  deltaToolCall : Option PartialToolCall := none

structure UnifiedMessage where
  role : MessageRole
  content : Option String := none
  reasoningContent : Option String := none
  toolCalls : Option (List ToolCall) := none
  toolCallId : Option String := none
  name : Option String := none

structure InterruptInfo where
  toolName : String
  toolCallId : String
  question : String
  context : Option Json := none

structure ConfirmationInfo where
  toolName : String
  toolCallId : String
  message : String
  operation : String
  arguments : Json

inductive AgentStateTag where
  | running
  | interrupted
  | awaitingConfirmation
  | completed
  | error
deriving DecidableEq, Repr

structure AgentRunResult where
  state : AgentStateTag
  content : Option String := none
  interrupt : Option InterruptInfo := none
  confirmation : Option ConfirmationInfo := none
  error : Option String := none

/-! ### A model of Python json.loads (recursive descent, fuel-indexed) -/

def skipWs : List Char → List Char
  | c :: cs => if c = ' ' ∨ c = '\t' ∨ c = '\n' ∨ c = '\r' then skipWs cs else c :: cs
  | [] => []

def parseDigitsAux : List Char → Nat → Nat × List Char
  | c :: cs, acc => if c.isDigit then parseDigitsAux cs (acc * 10 + (c.toNat - 48)) else (acc, c :: cs)
  | [], acc => (acc, [])

def parseNatTok : List Char → Option (Nat × List Char)
  | c :: cs => if c.isDigit then some (parseDigitsAux cs (c.toNat - 48)) else none
  | [] => none

def parseIntTok : List Char → Option (Int × List Char)
  | '-' :: cs => (parseNatTok cs).map (fun p => (-(p.1 : Int), p.2))
  | cs => (parseNatTok cs).map (fun p => ((p.1 : Int), p.2))

/-- Translation table for the simple JSON string escapes; a backslash
followed by anything else (including a unicode escape, which no claim
exercises) makes the parse fail. -/
def escChar (c : Char) : Option Char :=
  List.lookup c
    [('"', '"'), ('\\', '\\'), ('/', '/'), ('n', '\n'), ('t', '\t'), ('r', '\r'),
     ('b', Char.ofNat 8), ('f', Char.ofNat 12)]

def parseStringBody : List Char → Option (String × List Char)
  | '"' :: cs => some ("", cs)
  | '\\' :: c :: cs =>
    match escChar c with
    | some e => (parseStringBody cs).map (fun p => (String.mk (e :: p.1.data), p.2))
    | none => none
  | c :: cs => (parseStringBody cs).map (fun p => (String.mk (c :: p.1.data), p.2))
  | [] => none

mutual

def parseVal : Nat → List Char → Option (Json × List Char)
  | 0, _ => none
  | f + 1, cs =>
    match skipWs cs with
    | 'n' :: 'u' :: 'l' :: 'l' :: rest => some (.null, rest)
    | 't' :: 'r' :: 'u' :: 'e' :: rest => some (.bool true, rest)
    | 'f' :: 'a' :: 'l' :: 's' :: 'e' :: rest => some (.bool false, rest)
    | '"' :: rest => (parseStringBody rest).map (fun p => (.str p.1, p.2))
    | '[' :: rest =>
      match skipWs rest with
      | ']' :: rest2 => some (.arr [], rest2)
      | rest2 => parseElems f rest2 []
    | '{' :: rest =>
      match skipWs rest with
      | '}' :: rest2 => some (.obj [], rest2)
      | rest2 => parseFields f rest2 []
    | rest => (parseIntTok rest).map (fun p => (.num p.1, p.2))

def parseElems : Nat → List Char → List Json → Option (Json × List Char)
  | 0, _, _ => none
  | f + 1, cs, acc =>
    match parseVal f cs with
    | none => none
    | some (v, rest) =>
      match skipWs rest with
      | ',' :: rest2 => parseElems f rest2 (acc ++ [v])
      | ']' :: rest2 => some (.arr (acc ++ [v]), rest2)
      | _ => none

def parseFields : Nat → List Char → List (String × Json) → Option (Json × List Char)
  | 0, _, _ => none
  | f + 1, cs, acc =>
    match skipWs cs with
    | '"' :: rest =>
      match parseStringBody rest with
      | none => none
      | some (k, rest2) =>
        match skipWs rest2 with
        | ':' :: rest3 =>
          match parseVal f rest3 with
          | none => none
          | some (v, rest4) =>
            match skipWs rest4 with
            | ',' :: rest5 => parseFields f rest5 (acc ++ [(k, v)])
            | '}' :: rest5 => some (.obj (acc ++ [(k, v)]), rest5)
            | _ => none
        | _ => none
    | _ => none

end

def jsonParse (s : String) : Option Json :=
  match parseVal (s.length + 1) s.data with
  | some (v, rest) => if skipWs rest = [] then some v else none
  | none => none

/-! ### StreamReasoningParser (utils/stream_parser.py) -/

/-- First index at which needle occurs in hay (Python str.find). -/
def findSub (needle : List Char) : List Char → Option Nat
  | [] => if needle = [] then some 0 else none
  | c :: tl =>
    if needle.isPrefixOf (c :: tl) then some 0
    else (findSub needle tl).map (· + 1)

def containsSub (needle hay : List Char) : Bool :=
  (findSub needle hay).isSome

/-- Python s[-n:]. -/
def lastN (n : Nat) (l : List Char) : List Char :=
  l.drop (l.length - n)

def thinkOpen : List Char := "<think>".toList
def thinkClose : List Char := "</think>".toList

def findSafeIndexGo (text tag : List Char) : Nat → Nat → Nat
  | 0, _ => text.length
  | fuel + 1, i =>
    if i < tag.length then
      if (tag.take i).isSuffixOf text then text.length - i
      else findSafeIndexGo text tag fuel (i + 1)
    else text.length

/-- StreamReasoningParser._find_safe_index: the ascending scan over
partial-tag lengths, returning on the first (shortest) suffix match. -/
def findSafeIndex (text tag : List Char) : Nat :=
  findSafeIndexGo text tag tag.length 1

structure ParserState where
  insideThink : Bool
  buffer : List Char

/-- The while-loop body of StreamReasoningParser.process_chunk; fuel only
bounds the iterations that consume a complete tag from the buffer. -/
def parserLoop : Nat → ParserState → List (List Char × Bool) × ParserState
  | 0, st => ([], st)
  | fuel + 1, st =>
    if st.buffer = [] then ([], st)
    else if st.insideThink then
      match findSub thinkClose st.buffer with
      | some endIdx =>
        let reasoningText := st.buffer.take endIdx
        let out := if reasoningText ≠ ([] : List Char) then [(reasoningText, true)] else []
        let next := parserLoop fuel ⟨false, st.buffer.drop (endIdx + 8)⟩
        (out ++ next.1, next.2)
      | none =>
        if st.buffer.length > 8 ∧ ¬ containsSub (thinkClose.take 7) (lastN 7 st.buffer) then
          ([(st.buffer, true)], ⟨true, []⟩)
        else if containsSub (thinkClose.take 1) st.buffer then
          let safeIdx := findSafeIndex st.buffer thinkClose
          if safeIdx > 0 then
            ([(st.buffer.take safeIdx, true)], ⟨true, st.buffer.drop safeIdx⟩)
          else ([], st)
        else ([(st.buffer, true)], ⟨true, []⟩)
    else
      match findSub thinkOpen st.buffer with
      | some startIdx =>
        let out := if startIdx > 0 then [(st.buffer.take startIdx, false)] else []
        let next := parserLoop fuel ⟨true, st.buffer.drop (startIdx + 7)⟩
        (out ++ next.1, next.2)
      | none =>
        if st.buffer.length > 7 ∧ ¬ containsSub (thinkOpen.take 6) (lastN 6 st.buffer) then
          ([(st.buffer, false)], ⟨false, []⟩)
        else if containsSub (thinkOpen.take 1) st.buffer then
          let safeIdx := findSafeIndex st.buffer thinkOpen
          if safeIdx > 0 then
            ([(st.buffer.take safeIdx, false)], ⟨false, st.buffer.drop safeIdx⟩)
          else ([], st)
        else ([(st.buffer, false)], ⟨false, []⟩)

/-- StreamReasoningParser.process_chunk. -/
def ParserState.processChunk (st : ParserState) (chunk : List Char) :
    List (List Char × Bool) × ParserState :=
  if chunk = [] then ([], st)
  else
    let st1 : ParserState := ⟨st.insideThink, st.buffer ++ chunk⟩
    parserLoop (st1.buffer.length + 1) st1

/-! ### StreamHandler (stream_handler.py) -/

structure Builder where
  id : String
  name : String
  arguments : String

def alookup (i : Nat) : List (Nat × Builder) → Option Builder
  | [] => none
  | (j, b) :: rest => if j = i then some b else alookup i rest

def aupdate (i : Nat) (f : Builder → Builder) : List (Nat × Builder) → List (Nat × Builder)
  | [] => []
  | (j, b) :: rest => if j = i then (j, f b) :: rest else (j, b) :: aupdate i f rest

/-- The per-fragment builder update in _process_tool_call_chunk:
fill id and name when still unset and the fragment supplies them,
append the arguments delta. -/
def applyFrag (d : PartialToolCall) (b : Builder) : Builder :=
  let b := if d.id ≠ "" ∧ b.id = "" then { b with id := d.id } else b
  let b := if d.name ≠ "" ∧ b.name = "" then { b with name := d.name } else b
  if d.argumentsDelta ≠ "" then { b with arguments := b.arguments ++ d.argumentsDelta } else b

/-- StreamHandler._process_tool_call_chunk. -/
def processToolCallChunk (builders : List (Nat × Builder)) (d : PartialToolCall) :
    List (Nat × Builder) :=
  let builders :=
    if (alookup d.index builders).isNone then builders ++ [(d.index, ⟨d.id, d.name, ""⟩)]
    else builders
  aupdate d.index (applyFrag d) builders

/-- Reference accumulator for the grouping claim: the builder obtained by
running the fragments for one index, starting from no builder (the first
fragment creates one, exactly as the source does). -/
def expectedBuilder : Option Builder → List PartialToolCall → Option Builder
  | ob, [] => ob
  | none, d :: fs => expectedBuilder (some (applyFrag d ⟨d.id, d.name, ""⟩)) fs
  | some b, d :: fs => expectedBuilder (some (applyFrag d b)) fs

/-- First non-empty string of a list (empty if none) — the claim's
first-non-empty-wins wording. -/
def firstNonEmpty : List String → String
  | [] => ""
  | s :: rest => if s ≠ "" then s else firstNonEmpty rest

/-- Concatenation in arrival order — the claim's wording for the
arguments deltas. -/
def concatAll : List String → String
  | [] => ""
  | s :: rest => s ++ concatAll rest

/-- The loop body of StreamHandler._build_tool_calls for one builder:
emit a ToolCall when the name is set and the concatenated arguments
parse (empty arguments become the empty object; parse failure drops the
call); a missing id is synthesized from the index. -/
def emitBuilder (p : Nat × Builder) : Option ToolCall :=
  if p.2.name ≠ "" then
    match (if p.2.arguments ≠ "" then jsonParse p.2.arguments else some (Json.obj [])) with
    | some args =>
      some ⟨(if p.2.id ≠ "" then p.2.id else "call_" ++ toString p.1), p.2.name, args⟩
    | none => none
  else none

/-- StreamHandler._build_tool_calls. -/
def buildToolCalls (builders : List (Nat × Builder)) : List ToolCall :=
  builders.filterMap emitBuilder

structure HandlerState where
  content : String
  reasoning : String
  builders : List (Nat × Builder)
  parser : ParserState

def charsToString (l : List Char) : String := String.mk l

/-- Accumulation of the (text, is-reasoning) pairs inside
StreamHandler._process_content_chunk. -/
def partsSplit : List (List Char × Bool) → String × String
  | [] => ("", "")
  | (t, isR) :: rest =>
    let p := partsSplit rest
    if isR then (p.1, charsToString t ++ p.2) else (charsToString t ++ p.1, p.2)

/-- StreamHandler._process_content_chunk (display output dropped). -/
def handleContent (st : HandlerState) (txt : String) : HandlerState :=
  if st.reasoning ≠ "" ∧ ¬ st.parser.insideThink then
    { st with content := st.content ++ txt }
  else
    let r := st.parser.processChunk txt.toList
    let cr := partsSplit r.1
    { st with content := st.content ++ cr.1, reasoning := st.reasoning ++ cr.2, parser := r.2 }

/-- The loop body of StreamHandler.process_stream for one chunk. -/
def handleChunk (st : HandlerState) (ch : StreamChunk) : HandlerState :=
  let st :=
    match ch.deltaReasoning with
    | some s => if s ≠ "" then { st with reasoning := st.reasoning ++ s } else st
    | none => st
  let st :=
    match ch.deltaContent with
    | some s => if s ≠ "" then handleContent st s else st
    | none => st
  match ch.deltaToolCall with
  | some d => { st with builders := processToolCallChunk st.builders d }
  | none => st

def initHandlerState : HandlerState := ⟨"", "", [], ⟨false, []⟩⟩

/-- StreamHandler.process_stream. -/
def processStream (chunks : List StreamChunk) : UnifiedMessage :=
  let st := chunks.foldl handleChunk initHandlerState
  let tcs := buildToolCalls st.builders
  { role := .assistant
    content := if st.content ≠ "" then some st.content else none
    reasoningContent := if st.reasoning ≠ "" then some st.reasoning else none
    toolCalls := if tcs.isEmpty then none else some tcs }

/-! ### Tool model and agent state (agent.py)

A tool's execute is modelled as a pure function from its arguments to an
outcome: a stringified result, a raised InterruptRequested (as ask_user
does, carrying the call id the gate passed in), or an ordinary Python
exception with its str() rendering.  An instrumentation trace of execute
invocations is threaded through the state so that claims about how many
times execute ran are statable. -/

inductive ToolBehavior where
  | ok (result : String)
  | raiseInterrupt (question : String)
  | raiseErr (msg : String)

structure ToolSpec where
  name : String
  requiresConfirmation : Bool := false
  operationType : String := ""
  confirmationCheckArg : String := "path"
  interruptTool : Bool := false
  confMessage : Json → String := fun _ => ""
  behavior : Json → ToolBehavior := fun _ => .ok ""

/-- One recorded invocation of some tool's execute. -/
structure ExecEvent where
  toolName : String
  toolCallId : String
  arguments : Json

structure Agent where
  tools : List ToolSpec
  autoApprovePatterns : List (String × List String) := []
  history : List UnifiedMessage
  pendingInterrupt : Option InterruptInfo := none
  pendingToolCalls : Option (List ToolCall) := none
  pendingConfirmation : Option ConfirmationInfo := none
  execTrace : List ExecEvent := []

def lookupTool (name : String) : List ToolSpec → Option ToolSpec
  | [] => none
  | t :: rest => if t.name = name then some t else lookupTool name rest

/-- Simple shell-glob matching for fnmatch.fnmatch as used by
auto-approve patterns (star and question mark wildcards; no claim
exercises character classes). -/
def globMatch : List Char → List Char → Bool
  | [], [] => true
  | '*' :: ps, [] => globMatch ps []
  | '*' :: ps, c :: cs => globMatch ps (c :: cs) || globMatch ('*' :: ps) cs
  | [], _ :: _ => false
  | '?' :: _, [] => false
  | '?' :: ps, _ :: cs => globMatch ps cs
  | _ :: _, [] => false
  | p :: ps, c :: cs => p = c && globMatch ps cs
termination_by ps cs => (ps.length, cs.length)

def fnmatch (value pat : String) : Bool :=
  globMatch pat.toList value.toList

/-- CodingAgent._is_auto_approved. -/
def isAutoApproved (a : Agent) (operation value : String) : Bool :=
  let patterns := (a.autoApprovePatterns.lookup operation).getD []
  patterns.any (fun p => fnmatch value p)

/-- Python tool_call.arguments.get(key, "") rendered as the string the
gate feeds to fnmatch. -/
def jsonGetStr (j : Json) (key : String) : String :=
  match j with
  | .obj fields =>
    match fields.lookup key with
    | some (.str s) => s
    | _ => ""
  | _ => ""

/-- Raised exceptions that can cross an embedded Python function
boundary: the two control-flow signals, ordinary exceptions (by their
str()), and ValueError from the resume precondition checks. -/
inductive AgentExc where
  | interruptRequested (toolName toolCallId question : String) (context : Option Json)
  | confirmationRequested (toolName toolCallId message operation : String) (arguments : Json)
  | pyError (msg : String)
  | valueError (msg : String)

def mkToolMsg (toolCallId toolName content : String) : UnifiedMessage :=
  { role := .tool, content := some content, toolCallId := some toolCallId,
    name := some toolName }

/-- CodingAgent._add_tool_result. -/
def addToolResult (a : Agent) (toolCallId toolName content : String) : Agent :=
  { a with history := a.history ++ [mkToolMsg toolCallId toolName content] }

/-- What a tool's execute can raise: the interrupt control-flow signal
(as ask_user does) or an ordinary Python exception. -/
inductive ToolRaise where
  | interruptRequested (toolName toolCallId question : String) (context : Option Json)
  | pyError (msg : String)

/-- CodingAgent._execute_single_tool (with invocation instrumentation). -/
def executeSingleTool (tool : ToolSpec) (toolCallId : String) (arguments : Json)
    (a : Agent) : (Except ToolRaise String) × Agent :=
  let a := { a with execTrace := a.execTrace ++ [⟨tool.name, toolCallId, arguments⟩] }
  match tool.behavior arguments with
  | .ok r => (.ok r, a)
  | .raiseInterrupt q => (.error (.interruptRequested tool.name toolCallId q none), a)
  | .raiseErr m => (.error (.pyError m), a)

/-- CodingAgent._execute_tool_calls. -/
def executeToolCalls (a : Agent) : List ToolCall → (Except AgentExc Unit) × Agent
  | [] => (.ok (), a)
  | tc :: rest =>
    match lookupTool tc.name a.tools with
    | none =>
      let a := addToolResult a tc.id tc.name ("Tool '" ++ tc.name ++ "' not found")
      executeToolCalls a rest
    | some tool =>
      if tool.requiresConfirmation ∧
          ¬ isAutoApproved a tool.operationType (jsonGetStr tc.arguments tool.confirmationCheckArg) then
        (.error (.confirmationRequested tc.name tc.id (tool.confMessage tc.arguments)
          tool.operationType tc.arguments), a)
      else
        match executeSingleTool tool tc.id tc.arguments a with
        | (.ok r, a1) => executeToolCalls (addToolResult a1 tc.id tc.name r) rest
        | (.error (.pyError m), a1) =>
          executeToolCalls (addToolResult a1 tc.id tc.name ("Tool execution failed: " ++ m)) rest
        | (.error (.interruptRequested n id q c), a1) =>
          (.error (.interruptRequested n id q c), a1)

/-- The remaining-calls scan in CodingAgent._create_interrupt_result:
calls strictly after the interrupted one. -/
def remainingAfter (interruptedId : String) : List ToolCall → Bool → List ToolCall
  | [], _ => []
  | tc :: rest, found =>
    if tc.id = interruptedId then remainingAfter interruptedId rest true
    else if found then tc :: remainingAfter interruptedId rest true
    else remainingAfter interruptedId rest false

/-- CodingAgent._create_interrupt_result. -/
def createInterruptResult (toolName toolCallId question : String) (context : Option Json)
    (toolCalls : List ToolCall) (a : Agent) : AgentRunResult × Agent :=
  let remaining := remainingAfter toolCallId toolCalls false
  let info : InterruptInfo := ⟨toolName, toolCallId, question, context⟩
  let a := { a with pendingInterrupt := some info,
                    pendingToolCalls := if remaining.isEmpty then none else some remaining }
  ({ state := .interrupted, interrupt := some info }, a)

/-- CodingAgent._create_confirmation_result.  Note the different
remaining-calls computation: every call whose id differs from the gated
one, including calls positioned before it. -/
def createConfirmationResult (toolName toolCallId message operation : String)
    (arguments : Json) (toolCalls : List ToolCall) (a : Agent) : AgentRunResult × Agent :=
  let remaining := toolCalls.filter (fun tc => tc.id ≠ toolCallId)
  let info : ConfirmationInfo := ⟨toolName, toolCallId, message, operation, arguments⟩
  let a := { a with pendingConfirmation := some info,
                    pendingToolCalls := if remaining.isEmpty then none else some remaining }
  ({ state := .awaitingConfirmation, confirmation := some info }, a)

/-- Outcome of one run/resume invocation: a returned AgentRunResult, an
exception escaping uncaught, or fuel exhaustion of the generate loop
(the source loop would keep iterating). -/
inductive Outcome where
  | result (r : AgentRunResult)
  | raised (e : AgentExc)
  | diverged

/-- The provider is modelled as a pure oracle from the history the
agent sends to the assistant message the stream/non-stream path yields. -/
def Client : Type := List UnifiedMessage → UnifiedMessage

/-- CodingAgent._run_loop (with _process_message inlined: a message with
tool calls runs the gate and either loops, pauses, or lets a non-pause
exception escape; a message without tool calls completes the turn). -/
def runLoop (client : Client) : Nat → Agent → Outcome × Agent
  | 0, a => (.diverged, a)
  | fuel + 1, a =>
    let message := client a.history
    let a := { a with history := a.history ++ [message] }
    let tcs := (message.toolCalls.getD [])
    if tcs.isEmpty then
      (.result { state := .completed, content := message.content }, a)
    else
      match executeToolCalls a tcs with
      | (.ok _, a1) => runLoop client fuel a1
      | (.error (.interruptRequested n id q c), a1) =>
        let r := createInterruptResult n id q c tcs a1
        (.result r.1, r.2)
      | (.error (.confirmationRequested n id m op args), a1) =>
        let r := createConfirmationResult n id m op args tcs a1
        (.result r.1, r.2)
      | (.error e, a1) => (.raised e, a1)

/-- CodingAgent.run. -/
def run (client : Client) (fuel : Nat) (userInput : String) (a : Agent) : Outcome × Agent :=
  let a := { a with history := a.history ++ [{ role := .user, content := some userInput }] }
  runLoop client fuel a

/-- CodingAgent.resume. -/
def resume (client : Client) (fuel : Nat) (toolCallId userResponse : String)
    (a : Agent) : Outcome × Agent :=
  match a.pendingInterrupt with
  | none => (.raised (.valueError "No pending interrupt to resume"), a)
  | some pi =>
    if pi.toolCallId ≠ toolCallId then
      (.raised (.valueError ("Tool call ID mismatch: expected " ++ pi.toolCallId ++
        ", got " ++ toolCallId)), a)
    else
      let a := { a with history := a.history ++
        [mkToolMsg toolCallId pi.toolName userResponse] }
      let remainingCalls := a.pendingToolCalls.getD []
      let a := { a with pendingInterrupt := none, pendingToolCalls := none }
      if remainingCalls.isEmpty then runLoop client fuel a
      else
        match executeToolCalls a remainingCalls with
        | (.ok _, a1) => runLoop client fuel a1
        | (.error (.interruptRequested n id q c), a1) =>
          let r := createInterruptResult n id q c remainingCalls a1
          (.result r.1, r.2)
        | (.error e, a1) => (.raised e, a1)

/-- CodingAgent.resume_confirmation. -/
def resumeConfirmation (client : Client) (fuel : Nat) (toolCallId : String)
    (confirmed : Bool) (a : Agent) : Outcome × Agent :=
  match a.pendingConfirmation with
  | none => (.raised (.valueError "No pending confirmation to resume"), a)
  | some pc =>
    if pc.toolCallId ≠ toolCallId then
      (.raised (.valueError ("Tool call ID mismatch: expected " ++ pc.toolCallId ++
        ", got " ++ toolCallId)), a)
    else
      let toolName := pc.toolName
      let arguments := pc.arguments
      let remainingCalls := a.pendingToolCalls.getD []
      let a := { a with pendingConfirmation := none }
      match
        (if confirmed then
          match lookupTool toolName a.tools with
          | none => Sum.inr (Outcome.raised (.pyError ("KeyError: " ++ toolName)), a)
          | some tool =>
            match executeSingleTool tool toolCallId arguments a with
            | (.ok r, a1) => Sum.inl (addToolResult a1 toolCallId toolName r)
            | (.error (.interruptRequested n id q c), a1) =>
              let a2 := { a1 with pendingToolCalls :=
                if remainingCalls.isEmpty then none else some remainingCalls }
              let r := createInterruptResult n id q c [] a2
              Sum.inr (Outcome.result r.1, r.2)
            | (.error (.pyError m), a1) =>
              Sum.inl (addToolResult a1 toolCallId toolName ("Tool execution failed: " ++ m))
        else
          Sum.inl (addToolResult a toolCallId toolName
            ("Operation cancelled by user: " ++ toolName ++ " was not executed.")))
      with
      | Sum.inr out => out
      | Sum.inl a =>
        let a := { a with pendingToolCalls := none }
        if remainingCalls.isEmpty then runLoop client fuel a
        else
          match executeToolCalls a remainingCalls with
          | (.ok _, a1) => runLoop client fuel a1
          | (.error (.interruptRequested n id q c), a1) =>
            let r := createInterruptResult n id q c remainingCalls a1
            (.result r.1, r.2)
          | (.error (.confirmationRequested n id m op args), a1) =>
            let r := createConfirmationResult n id m op args remainingCalls a1
            (.result r.1, r.2)
          | (.error e, a1) => (.raised e, a1)

/-- CodingAgent.clear_history.  Note: the source resets only the
interrupt-related slots; _pending_confirmation is left untouched. -/
def clearHistory (a : Agent) : Agent :=
  let hist :=
    match a.history.head? with
    | some m => if m.role = .system then [m] else []
    | none => []
  { a with history := hist, pendingInterrupt := none, pendingToolCalls := none }

/-! ### MemoryManager (core/memory_manager.py) -/

structure MemoryManager where
  history : List UnifiedMessage := []
  pendingInterrupt : Option InterruptInfo := none
  pendingConfirmation : Option ConfirmationInfo := none
  pendingToolCalls : Option (List ToolCall) := none

/-- MemoryManager.add_tool_result. -/
def MemoryManager.addToolResult (m : MemoryManager) (toolCallId name content : String) :
    MemoryManager :=
  { m with history := m.history ++ [mkToolMsg toolCallId name content] }

/-- MemoryManager.clear. -/
def MemoryManager.clear (m : MemoryManager) (keepSystem : Bool := true) : MemoryManager :=
  let hist :=
    if keepSystem ∧ ¬ m.history.isEmpty then
      match m.history.head? with
      | some sys => if sys.role = .system then [sys] else []
      | none => []
    else []
  { history := hist, pendingInterrupt := none, pendingConfirmation := none,
    pendingToolCalls := none }

/-- MemoryManager.cleanup_pending_state. -/
def MemoryManager.cleanupPendingState (m : MemoryManager) : MemoryManager :=
  let m :=
    match m.pendingConfirmation with
    | some pc =>
      { m.addToolResult pc.toolCallId pc.toolName
          "Operation abandoned: user sent a new message before confirming."
        with pendingConfirmation := none }
    | none => m
  let m :=
    match m.pendingInterrupt with
    | some pi =>
      { m.addToolResult pi.toolCallId pi.toolName
          "Question abandoned: user sent a new message before responding."
        with pendingInterrupt := none }
    | none => m
  { m with pendingToolCalls := none }

/-! ### Concrete fixtures used by the theorems -/

def calcTool : ToolSpec := { name := "calculator", behavior := fun _ => .ok "5" }

def writeTool : ToolSpec :=
  { name := "write_file", requiresConfirmation := true, operationType := "write",
    confMessage := fun _ => "Write to file?", behavior := fun _ => .ok "written" }

def nestedTool : ToolSpec :=
  { name := "nested", behavior := fun _ => .raiseInterrupt "Which file?" }

def callA : ToolCall := ⟨"a", "calculator", .obj []⟩

def callB : ToolCall := ⟨"b", "write_file", .obj [("path", .str "main.py")]⟩

def callY : ToolCall := ⟨"y", "calculator", .obj []⟩

def sysMsg : UnifiedMessage := { role := .system, content := some "sys" }

def asstAB : UnifiedMessage := { role := .assistant, toolCalls := some [callA, callB] }

def clientAB : Client := fun h =>
  if h.length ≤ 2 then asstAB else { role := .assistant, content := some "done" }

def clientPlain : Client := fun _ => { role := .assistant, content := some "ok" }

def agent0 : Agent := { tools := [calcTool, writeTool, nestedTool], history := [sysMsg] }

def pendInfo : InterruptInfo := ⟨"ask_user", "tc1", "Q?", none⟩

def asstMsg : UnifiedMessage :=
  { role := .assistant, toolCalls := some [⟨"tc1", "ask_user", .obj []⟩] }

def agentPend : Agent :=
  { tools := [calcTool], history := [sysMsg, { role := .user, content := some "u1" }, asstMsg],
    pendingInterrupt := some pendInfo }

def mmPend : MemoryManager :=
  { history := [sysMsg, { role := .user, content := some "u1" }, asstMsg],
    pendingInterrupt := some pendInfo }

def confInfo : ConfirmationInfo := ⟨"nested", "cx", "msg", "write", .obj []⟩

def agentConf : Agent :=
  { tools := [calcTool, writeTool, nestedTool], history := [sysMsg],
    pendingConfirmation := some confInfo, pendingToolCalls := some [callY] }

def agentInt : Agent :=
  { tools := [calcTool, writeTool], history := [sysMsg],
    pendingInterrupt := some ⟨"ask_user", "ti", "Q", none⟩, pendingToolCalls := some [callB] }

def agentC6 : Agent :=
  { tools := [calcTool], history := [sysMsg, asstMsg], pendingConfirmation := some confInfo,
    pendingInterrupt := some pendInfo, pendingToolCalls := some [callY] }

def mmC6 : MemoryManager :=
  { history := [sysMsg, asstMsg], pendingConfirmation := some confInfo,
    pendingToolCalls := some [callY] }

def confW : ConfirmationInfo :=
  ⟨"write_file", "w1", "Write to file?", "write", .obj [("path", .str "main.py")]⟩

def agentW : Agent :=
  { tools := [calcTool, writeTool], history := [sysMsg], pendingConfirmation := some confW }

/-! ### Claim theorems -/

/-- C1: the claim says a new run on an agent with a pending pause first
appends one synthetic abandoned Tool-role result for the pending call and
clears the pending slot, so the provider never sees a dangling tool call.
The code violates this: CodingAgent.run appends only the new User
message, never invokes any cleanup, and leaves the pending interrupt
slot set; no Tool-role message for the pending call ever enters history.
The last two conjuncts show that MemoryManager.cleanup_pending_state
(present in the repository but never called by run) is exactly the
missing step. -/
theorem c1_run_skips_pending_cleanup :
    (run clientPlain 1 "hello" agentPend).2.pendingInterrupt = some pendInfo
    ∧ (run clientPlain 1 "hello" agentPend).2.history =
        agentPend.history ++
          [{ role := .user, content := some "hello" },
           { role := .assistant, content := some "ok" }]
    ∧ ((run clientPlain 1 "hello" agentPend).2.history.filter
        (fun m => decide (m.role = MessageRole.tool))).isEmpty = true
    ∧ mmPend.cleanupPendingState.history =
        mmPend.history ++ [mkToolMsg "tc1" "ask_user"
          "Question abandoned: user sent a new message before responding."]
    ∧ mmPend.cleanupPendingState.pendingInterrupt = none :=
  ⟨rfl, rfl, rfl, rfl, rfl⟩

/-- C2: the claim says any chunking of the same content, including splits
falling inside an embedded think marker, reassembles to the identical
message.  Counterexample: splitting the content "aaaaaa(think)R(/think)"
as "aaaaaa<t" / "hink>R</think>" makes the reassembler emit the marker
text verbatim as content with no reasoning, while the unsplit sequence
(second conjunct) yields content "aaaaaa" and reasoning "R" — the partial
marker check only catches a full six-character marker head in the buffer
tail, so a buffer longer than seven characters ending in a shorter marker
head is flushed as content. -/
theorem c2_marker_split_breaks_equivalence :
    processStream [⟨some "aaaaaa<t", none, none⟩, ⟨some "hink>R</think>", none, none⟩] =
      { role := .assistant, content := some "aaaaaa<think>R</think>" }
    ∧ processStream [⟨some "aaaaaa<think>R</think>", none, none⟩] =
      { role := .assistant, content := some "aaaaaa", reasoningContent := some "R" } :=
  ⟨rfl, rfl⟩

/-- C3: the claim says remaining_calls always equal the calls strictly
after the paused call, for both pause kinds.  For confirmations the code
filters by id instead: in the batch [callA, callB] where callA already
executed (its "5" result and trace entry are in place) and callB raised
the confirmation, the pending slot records [callA] — an already-attempted
call — while the strictly-after suffix (the interrupt path's computation,
last conjunct) is empty. -/
theorem c3_confirmation_remaining_keeps_attempted_call :
    (run clientAB 2 "hi" agent0).1 =
      Outcome.result { state := .awaitingConfirmation
                       confirmation := some ⟨"write_file", "b", "Write to file?", "write",
                         .obj [("path", .str "main.py")]⟩ }
    ∧ (run clientAB 2 "hi" agent0).2.pendingToolCalls = some [callA]
    ∧ (run clientAB 2 "hi" agent0).2.history =
        [sysMsg, { role := .user, content := some "hi" }, asstAB,
         mkToolMsg "a" "calculator" "5"]
    ∧ (run clientAB 2 "hi" agent0).2.execTrace = [⟨"calculator", "a", .obj []⟩]
    ∧ remainingAfter "b" [callA, callB] false = [] :=
  ⟨rfl, rfl, rfl, rfl, rfl⟩

/-- C4: the claim says that when the approved tool itself raises a new
interrupt during resume_confirmation, the original batch's remaining
calls stay recorded behind the new interrupt.  The code first stores them
(line 187) but then calls _create_interrupt_result with an empty batch,
which unconditionally overwrites the slot: starting from a pending
confirmation with remaining [callY], the new interrupt is captured but
the pending-tool-calls slot ends up empty — the batch's tail is lost. -/
theorem c4_nested_interrupt_drops_remaining_calls :
    (resumeConfirmation clientPlain 1 "cx" true agentConf).1 =
      Outcome.result { state := .interrupted
                       interrupt := some ⟨"nested", "cx", "Which file?", none⟩ }
    ∧ (resumeConfirmation clientPlain 1 "cx" true agentConf).2.pendingInterrupt =
        some ⟨"nested", "cx", "Which file?", none⟩
    ∧ agentConf.pendingToolCalls = some [callY]
    ∧ (resumeConfirmation clientPlain 1 "cx" true agentConf).2.pendingToolCalls = none :=
  ⟨rfl, rfl, rfl, rfl⟩

/-- C5: the claim says a pause raised while executing the remaining calls
inside resume is handled like the main loop, never escaping as an
exception.  The code's try block around that execution catches only
InterruptRequested: with a pending interrupt whose remaining calls
contain a confirmation-gated tool, resume lets ConfirmationRequested
escape uncaught, and no pending confirmation is captured. -/
theorem c5_confirmation_escapes_resume :
    (resume clientPlain 1 "ti" "my answer" agentInt).1 =
      Outcome.raised (.confirmationRequested "write_file" "b" "Write to file?" "write"
        (Json.obj [("path", Json.str "main.py")]))
    ∧ (resume clientPlain 1 "ti" "my answer" agentInt).2.pendingConfirmation = none :=
  ⟨rfl, rfl⟩

/-- C6: the claim says clearing history down to the system message also
empties the interrupt, confirmation and tool-calls slots regardless of
pause kind.  CodingAgent.clear_history resets only the interrupt-related
slots: with a pending confirmation outstanding, the confirmation slot
survives the clear (fourth conjunct), while MemoryManager.clear — which
the claim also cites — does clear all three (last conjuncts). -/
theorem c6_clear_history_keeps_pending_confirmation :
    (clearHistory agentC6).history = [sysMsg]
    ∧ (clearHistory agentC6).pendingInterrupt = none
    ∧ (clearHistory agentC6).pendingToolCalls = none
    ∧ (clearHistory agentC6).pendingConfirmation = some confInfo
    ∧ (mmC6.clear true).pendingInterrupt = none
    ∧ (mmC6.clear true).pendingConfirmation = none
    ∧ (mmC6.clear true).pendingToolCalls = none
    ∧ (mmC6.clear true).history = [sysMsg] :=
  ⟨rfl, rfl, rfl, rfl, rfl, rfl, rfl, rfl⟩

/-- C7: calling resume or resume_confirmation with no pending pause of
the corresponding kind, or with a tool_call_id different from the pending
record's id, raises a ValueError and returns the agent state completely
unchanged — the precondition checks precede every mutation. -/
theorem c7_resume_checks_precede_mutation (client : Client) (fuel : Nat) (a : Agent)
    (tid resp : String) (confirmed : Bool) :
    (a.pendingInterrupt = none →
      resume client fuel tid resp a =
        (.raised (.valueError "No pending interrupt to resume"), a))
    ∧ (∀ pi, a.pendingInterrupt = some pi → pi.toolCallId ≠ tid →
        resume client fuel tid resp a =
          (.raised (.valueError ("Tool call ID mismatch: expected " ++ pi.toolCallId ++
            ", got " ++ tid)), a))
    ∧ (a.pendingConfirmation = none →
        resumeConfirmation client fuel tid confirmed a =
          (.raised (.valueError "No pending confirmation to resume"), a))
    ∧ (∀ pc, a.pendingConfirmation = some pc → pc.toolCallId ≠ tid →
        resumeConfirmation client fuel tid confirmed a =
          (.raised (.valueError ("Tool call ID mismatch: expected " ++ pc.toolCallId ++
            ", got " ++ tid)), a)) := by
  refine ⟨fun h => ?_, fun pi h hne => ?_, fun h => ?_, fun pc h hne => ?_⟩
  · simp [resume, h]
  · simp [resume, h, hne]
  · simp [resumeConfirmation, h]
  · simp [resumeConfirmation, h, hne]

/-- Witness for C7: concrete applications of all four precondition
checks — no pending interrupt on agent0, mismatched interrupt id on
agentInt, no pending confirmation on agent0, mismatched confirmation id
on agentConf. -/
theorem c7_witness :
    resume clientPlain 1 "zzz" "r" agent0 =
      (.raised (.valueError "No pending interrupt to resume"), agent0)
    ∧ resume clientPlain 1 "zzz" "r" agentInt =
      (.raised (.valueError "Tool call ID mismatch: expected ti, got zzz"), agentInt)
    ∧ resumeConfirmation clientPlain 1 "zzz" true agent0 =
      (.raised (.valueError "No pending confirmation to resume"), agent0)
    ∧ resumeConfirmation clientPlain 1 "zzz" true agentConf =
      (.raised (.valueError "Tool call ID mismatch: expected cx, got zzz"), agentConf) :=
  ⟨(c7_resume_checks_precede_mutation clientPlain 1 agent0 "zzz" "r" true).1 rfl,
   (c7_resume_checks_precede_mutation clientPlain 1 agentInt "zzz" "r" true).2.1
     ⟨"ask_user", "ti", "Q", none⟩ rfl (by decide),
   (c7_resume_checks_precede_mutation clientPlain 1 agent0 "zzz" "r" true).2.2.1 rfl,
   (c7_resume_checks_precede_mutation clientPlain 1 agentConf "zzz" "r" true).2.2.2
     confInfo rfl (by decide)⟩

/-- C8: for a pending confirmation with matching id (no further calls
queued, provider answering with a content-only message),
resume_confirmation(id, False) appends the fixed cancellation-text
Tool-role result and never invokes the gated tool's execute (the
invocation trace is unchanged); resume_confirmation(id, True) invokes
execute exactly once — appending its stringified result, or the
error-text result if execution raises an ordinary exception, with
exactly one new trace entry either way. -/
theorem c8_resume_confirmation_execute_once (client : Client) (n : Nat) (a : Agent)
    (pc : ConfirmationInfo) (tool : ToolSpec)
    (hpc : a.pendingConfirmation = some pc)
    (htool : lookupTool pc.toolName a.tools = some tool)
    (hrem : a.pendingToolCalls = none)
    (hclient : ∀ h, (client h).toolCalls = none) :
    ((resumeConfirmation client (n + 1) pc.toolCallId false a).2.execTrace = a.execTrace
     ∧ (resumeConfirmation client (n + 1) pc.toolCallId false a).2.history =
         (a.history ++ [mkToolMsg pc.toolCallId pc.toolName
            ("Operation cancelled by user: " ++ pc.toolName ++ " was not executed.")]) ++
         [client (a.history ++ [mkToolMsg pc.toolCallId pc.toolName
            ("Operation cancelled by user: " ++ pc.toolName ++ " was not executed.")])])
    ∧ (∀ r, tool.behavior pc.arguments = .ok r →
        (resumeConfirmation client (n + 1) pc.toolCallId true a).2.execTrace =
          a.execTrace ++ [⟨tool.name, pc.toolCallId, pc.arguments⟩]
        ∧ (resumeConfirmation client (n + 1) pc.toolCallId true a).2.history =
            (a.history ++ [mkToolMsg pc.toolCallId pc.toolName r]) ++
            [client (a.history ++ [mkToolMsg pc.toolCallId pc.toolName r])])
    ∧ (∀ m, tool.behavior pc.arguments = .raiseErr m →
        (resumeConfirmation client (n + 1) pc.toolCallId true a).2.execTrace =
          a.execTrace ++ [⟨tool.name, pc.toolCallId, pc.arguments⟩]
        ∧ (resumeConfirmation client (n + 1) pc.toolCallId true a).2.history =
            (a.history ++ [mkToolMsg pc.toolCallId pc.toolName
               ("Tool execution failed: " ++ m)]) ++
            [client (a.history ++ [mkToolMsg pc.toolCallId pc.toolName
               ("Tool execution failed: " ++ m)])]) := by
  refine ⟨⟨?_, ?_⟩, fun r hbeh => ⟨?_, ?_⟩, fun m hbeh => ⟨?_, ?_⟩⟩
  · simp [resumeConfirmation, runLoop, hpc, htool, hrem, hclient,
      executeSingleTool, addToolResult, mkToolMsg]
  · simp [resumeConfirmation, runLoop, hpc, htool, hrem, hclient,
      executeSingleTool, addToolResult, mkToolMsg]
  · simp [resumeConfirmation, runLoop, hpc, htool, hrem, hbeh, hclient,
      executeSingleTool, addToolResult, mkToolMsg]
  · simp [resumeConfirmation, runLoop, hpc, htool, hrem, hbeh, hclient,
      executeSingleTool, addToolResult, mkToolMsg]
  · simp [resumeConfirmation, runLoop, hpc, htool, hrem, hbeh, hclient,
      executeSingleTool, addToolResult, mkToolMsg]
  · simp [resumeConfirmation, runLoop, hpc, htool, hrem, hbeh, hclient,
      executeSingleTool, addToolResult, mkToolMsg]

/-- Witness for C8: on a concrete pending write confirmation, declining
leaves the invocation trace untouched while approving adds exactly the
one invocation of the gated call. -/
theorem c8_witness :
    (resumeConfirmation clientPlain 1 "w1" false agentW).2.execTrace = agentW.execTrace
    ∧ (resumeConfirmation clientPlain 1 "w1" true agentW).2.execTrace =
        agentW.execTrace ++ [⟨"write_file", "w1", Json.obj [("path", Json.str "main.py")]⟩] :=
  ⟨(c8_resume_confirmation_execute_once clientPlain 0 agentW confW writeTool
      rfl rfl rfl (fun _ => rfl)).1.1,
   ((c8_resume_confirmation_execute_once clientPlain 0 agentW confW writeTool
      rfl rfl rfl (fun _ => rfl)).2.1 "written" rfl).1⟩

/-! ### Support lemmas for the stream-reassembly claims -/

theorem str_empty_append (s : String) : "" ++ s = s := rfl

theorem str_append_empty (s : String) : s ++ "" = s := by
  cases s with
  | mk l => show String.mk (l ++ []) = String.mk l
            rw [List.append_nil]

theorem str_append_assoc (s t u : String) : s ++ t ++ u = s ++ (t ++ u) := by
  cases s with
  | mk a => cases t with
    | mk b => cases u with
      | mk c => show String.mk ((a ++ b) ++ c) = String.mk (a ++ (b ++ c))
                rw [List.append_assoc]

theorem applyFrag_fresh (d : PartialToolCall) :
    applyFrag d ⟨d.id, d.name, ""⟩ = ⟨d.id, d.name, d.argumentsDelta⟩ := by
  by_cases hi : d.id = "" <;> by_cases hn : d.name = "" <;>
    by_cases ha : d.argumentsDelta = "" <;>
    simp [applyFrag, hi, hn, ha, str_empty_append]

theorem alookup_append (i : Nat) (l1 l2 : List (Nat × Builder)) :
    alookup i (l1 ++ l2) = (alookup i l1).or (alookup i l2) := by
  induction l1 with
  | nil => simp [alookup]
  | cons p l1 ih =>
    obtain ⟨j, b⟩ := p
    by_cases h : j = i <;> simp [alookup, h, ih]

theorem alookup_aupdate_self (i : Nat) (f : Builder → Builder) (l : List (Nat × Builder)) :
    alookup i (aupdate i f l) = (alookup i l).map f := by
  induction l with
  | nil => simp [alookup, aupdate]
  | cons p l ih =>
    obtain ⟨j, b⟩ := p
    by_cases h : j = i <;> simp [alookup, aupdate, h, ih]

theorem alookup_aupdate_ne (i j : Nat) (f : Builder → Builder) (l : List (Nat × Builder))
    (h : j ≠ i) : alookup i (aupdate j f l) = alookup i l := by
  induction l with
  | nil => simp [alookup, aupdate]
  | cons p l ih =>
    obtain ⟨k, b⟩ := p
    by_cases hk : k = j <;> by_cases hk2 : k = i <;>
      simp_all [alookup, aupdate]

theorem expectedBuilder_closed (fs : List PartialToolCall) (b : Builder) :
    expectedBuilder (some b) fs =
      some ⟨firstNonEmpty (b.id :: fs.map (fun d => d.id)),
            firstNonEmpty (b.name :: fs.map (fun d => d.name)),
            b.arguments ++ concatAll (fs.map (fun d => d.argumentsDelta))⟩ := by
  induction fs generalizing b with
  | nil =>
    obtain ⟨i, n, args⟩ := b
    simp only [expectedBuilder, List.map_nil, concatAll, firstNonEmpty, str_append_empty]
    by_cases hi : i = "" <;> by_cases hn : n = "" <;> simp [hi, hn]
  | cons d fs ih =>
    show expectedBuilder (some (applyFrag d b)) fs = _
    rw [ih]
    obtain ⟨i, n, args⟩ := b
    by_cases hdi : d.id = "" <;> by_cases hi : i = "" <;>
      by_cases hdn : d.name = "" <;> by_cases hn : n = "" <;>
      by_cases hda : d.argumentsDelta = "" <;>
      simp [applyFrag, hdi, hi, hdn, hn, hda, firstNonEmpty, concatAll,
        str_append_empty, str_append_assoc]

theorem alookup_foldl_group (ds : List PartialToolCall) (bs : List (Nat × Builder)) (i : Nat) :
    alookup i (ds.foldl processToolCallChunk bs) =
      expectedBuilder (alookup i bs) (ds.filter (fun d => d.index == i)) := by
  induction ds generalizing bs with
  | nil => cases h : alookup i bs <;> simp [expectedBuilder, h]
  | cons d ds ih =>
    rw [List.foldl_cons, ih]
    by_cases hi : d.index = i
    · subst hi
      have hstep : alookup d.index (processToolCallChunk bs d) =
          some (applyFrag d ((alookup d.index bs).getD ⟨d.id, d.name, ""⟩)) := by
        cases hb : alookup d.index bs with
        | none =>
          simp [processToolCallChunk, hb, alookup_append, alookup_aupdate_self, alookup]
        | some b =>
          simp [processToolCallChunk, hb, alookup_aupdate_self]
      rw [hstep]
      cases hb : alookup d.index bs with
      | none => simp [hb, expectedBuilder]
      | some b => simp [hb, expectedBuilder]
    · have hne : (d.index == i) = false := by simp [hi]
      have hstep : alookup i (processToolCallChunk bs d) = alookup i bs := by
        by_cases hb : (alookup d.index bs).isNone <;>
          simp [processToolCallChunk, hb, alookup_append, alookup_aupdate_ne, hi, alookup,
            Ne.symm hi]
      rw [hstep]
      simp [hne]

theorem buildToolCalls_length (bs : List (Nat × Builder)) :
    (buildToolCalls bs).length =
      (bs.filter (fun p => p.2.name != "" &&
        (p.2.arguments == "" || (jsonParse p.2.arguments).isSome))).length := by
  induction bs with
  | nil => rfl
  | cons p bs ih =>
    obtain ⟨i, b⟩ := p
    simp only [buildToolCalls, List.filterMap_cons, List.filter_cons] at *
    by_cases hn : b.name = ""
    · have he : emitBuilder (i, b) = none := by simp [emitBuilder, hn]
      simp [he, hn, ih]
    · by_cases ha : b.arguments = ""
      · have he : emitBuilder (i, b) =
            some ⟨(if b.id ≠ "" then b.id else "call_" ++ toString i), b.name, Json.obj []⟩ := by
          simp [emitBuilder, hn, ha]
        simp [he, hn, ha, ih]
      · cases hp : jsonParse b.arguments with
        | none =>
          have he : emitBuilder (i, b) = none := by simp [emitBuilder, hn, ha, hp]
          simp [he, hn, ha, hp, ih]
        | some v =>
          have he : emitBuilder (i, b) =
              some ⟨(if b.id ≠ "" then b.id else "call_" ++ toString i), b.name, v⟩ := by
            simp [emitBuilder, hn, ha, hp]
          simp [he, hn, ha, hp, ih]

theorem call_append_ne_empty (n : String) : ("call_" ++ n) ≠ "" := by
  cases n with
  | mk l =>
    intro h
    simpa using congrArg String.data h

/-- C9: the reassembler groups partial tool-call fragments by index —
the builder accumulated for index i is exactly the first non-empty id,
the first non-empty name, and the in-arrival-order concatenation of the
argument deltas of the fragments carrying index i (first conjunct);
each builder with a non-empty name whose concatenated arguments parse
(an empty string counting as the empty object) yields exactly one
ToolCall and each failing builder yields none, so the emitted count
equals the count of such builders (second conjunct); and the concrete
fragment sequence from the claim yields exactly
ToolCall(id call_0, name calc, arguments a ↦ 1) (third conjunct). -/
theorem c9_fragment_grouping_and_emission :
    (∀ (ds : List PartialToolCall) (i : Nat),
      alookup i (ds.foldl processToolCallChunk []) =
        (if (ds.filter (fun d => d.index == i)).isEmpty then none
         else some ⟨firstNonEmpty ((ds.filter (fun d => d.index == i)).map (fun d => d.id)),
                    firstNonEmpty ((ds.filter (fun d => d.index == i)).map (fun d => d.name)),
                    concatAll ((ds.filter (fun d => d.index == i)).map
                      (fun d => d.argumentsDelta))⟩))
    ∧ (∀ bs : List (Nat × Builder),
        (buildToolCalls bs).length =
          (bs.filter (fun p => p.2.name != "" &&
            (p.2.arguments == "" || (jsonParse p.2.arguments).isSome))).length)
    ∧ processStream
        [⟨none, none, some ⟨0, "", "calc", ""⟩⟩,
         ⟨none, none, some ⟨0, "", "", "\x7b\"a\":"⟩⟩,
         ⟨none, none, some ⟨0, "", "", "1\x7d"⟩⟩] =
      { role := .assistant, toolCalls := some [⟨"call_0", "calc", .obj [("a", .num 1)]⟩] } := by
  refine ⟨fun ds i => ?_, buildToolCalls_length, rfl⟩
  rw [alookup_foldl_group]
  cases hfs : ds.filter (fun d => d.index == i) with
  | nil => simp [expectedBuilder, alookup]
  | cons d fs =>
    show expectedBuilder (some (applyFrag d ⟨d.id, d.name, ""⟩)) fs = _
    rw [applyFrag_fresh, expectedBuilder_closed]
    simp [firstNonEmpty, concatAll]

/-- C10: every ToolCall the reassembler emits carries a non-empty id;
when a builder's fragments never supplied an id, the emitted id is the
synthesized call_(index) string, so tool-result correlation by id always
has something to correlate on. -/
theorem c10_synthesized_ids_nonempty :
    (∀ (bs : List (Nat × Builder)) (tc : ToolCall), tc ∈ buildToolCalls bs → tc.id ≠ "")
    ∧ (∀ (i : Nat) (b : Builder) (tc : ToolCall), b.id = "" →
        tc ∈ buildToolCalls [(i, b)] → tc.id = "call_" ++ toString i) := by
  constructor
  · intro bs tc htc
    rw [buildToolCalls, List.mem_filterMap] at htc
    obtain ⟨p, _, hemit⟩ := htc
    unfold emitBuilder at hemit
    by_cases hn : p.2.name = ""
    · simp [hn] at hemit
    · rw [if_pos hn] at hemit
      cases harg : (if p.2.arguments ≠ "" then jsonParse p.2.arguments else some (Json.obj [])) with
      | none => rw [harg] at hemit; exact absurd hemit (by simp)
      | some args =>
        rw [harg] at hemit
        have htc : tc = ⟨(if p.2.id ≠ "" then p.2.id else "call_" ++ toString p.1),
            p.2.name, args⟩ := by
          cases hemit; rfl
        subst htc
        by_cases hid : p.2.id = ""
        · simp only [hid]
          simpa using call_append_ne_empty (toString p.1)
        · simp [hid]
  · intro i b tc hid htc
    rw [buildToolCalls, List.mem_filterMap] at htc
    obtain ⟨p, hp, hemit⟩ := htc
    have hpb : p = (i, b) := by simpa using hp
    subst hpb
    unfold emitBuilder at hemit
    by_cases hn : b.name = ""
    · simp [hn] at hemit
    · rw [if_pos (by simpa using hn)] at hemit
      cases harg : (if b.arguments ≠ "" then jsonParse b.arguments else some (Json.obj [])) with
      | none => rw [harg] at hemit; exact absurd hemit (by simp)
      | some args =>
        rw [harg] at hemit
        have htc : tc = ⟨(if b.id ≠ "" then b.id else "call_" ++ toString i), b.name, args⟩ := by
          cases hemit; rfl
        subst htc
        simp [hid]

/-- Witness for C10: the single-builder stream with no id supplied emits
a ToolCall whose id is the synthesized call_0, which is non-empty. -/
theorem c10_witness :
    ((⟨"call_0", "calc", Json.obj []⟩ : ToolCall).id ≠ "")
    ∧ (⟨"call_0", "calc", Json.obj []⟩ : ToolCall).id = "call_" ++ toString (0 : Nat) := by
  have hmem : (⟨"call_0", "calc", Json.obj []⟩ : ToolCall) ∈
      buildToolCalls [(0, (⟨"", "calc", ""⟩ : Builder))] := by
    have h : buildToolCalls [(0, (⟨"", "calc", ""⟩ : Builder))] =
        [⟨"call_0", "calc", Json.obj []⟩] := rfl
    rw [h]
    exact List.mem_singleton_self _
  exact ⟨c10_synthesized_ids_nonempty.1 _ _ hmem,
         c10_synthesized_ids_nonempty.2 0 ⟨"", "calc", ""⟩ _ rfl hmem⟩

end CodingAgent
